import Mathlib

/-!
Shallow embedding of the virt-ic digital circuit simulator
(src/trace.rs, src/board.rs, src/chip/gates.rs, src/chip/memory.rs,
src/chip/generators.rs), together with theorems settling the claims about
the trace resolution algorithm, the board scheduler, the gate chips, the
memory chips, and the pin accessors.

Pins are shared between chips and traces through `Rc<RefCell<Pin>>` in the
source; the embedding models this aliasing with a heap `Nat → Pin` indexed
by pin identity where sharing matters (traces, board), and with plain pin
arrays `Fin n → Pin` for claims about a single chip's `run`.
-/

namespace VirtIc

/-- Tri-value logic signal, from the crate root (`State`). -/
inductive State where
  | High
  | Low
  | Undefined
deriving DecidableEq, Repr

/-- Pin direction, from the crate root (`PinType`). -/
inductive PinType where
  | Input
  | Output
  | Undefined
deriving DecidableEq, Repr

/-- A chip terminal: its direction and its current signal.  The owning-chip
id and index fields of the Rust `Pin` identify the pin and never change;
identity is carried by the heap index / array index in this embedding. -/
structure Pin where
  pin_type : PinType
  state : State
deriving DecidableEq, Repr

/-- Modelled from the spec: the helper on `State` (`State::from_u8`, declared
in the crate root, which is not among the provided sources) that converts a
byte's bit at a given index into High/Low. -/
def State.from_u8 (byte idx : Nat) : State :=
  if byte / 2 ^ idx % 2 = 1 then State.High else State.Low

/-- `pins[i].borrow_mut().state = s` on a pin array. -/
def setState {n : Nat} (pins : Fin n → Pin) (i : Fin n) (s : State) : Fin n → Pin :=
  Function.update pins i { pins i with state := s }

/-- `pins[i].borrow_mut().pin_type = t` on a pin array. -/
def setType {n : Nat} (pins : Fin n → Pin) (i : Fin n) (t : PinType) : Fin n → Pin :=
  Function.update pins i { pins i with pin_type := t }

/-! ## Trace (src/trace.rs)

A `Trace` holds shared references to pins; here it is a list of pin ids into
a heap `Nat → Pin`. -/

/-- One step of the first loop of `Trace::communicate`: fold the state of one
connected pin into the accumulated `main_state`. -/
def resolveStep (h : Nat → Pin) (main : State) (pid : Nat) : State :=
  if (h pid).pin_type = PinType.Output then
    match (h pid).state with
    | State.High => State.High
    | State.Low => if main = State.Undefined then State.Low else main
    | State.Undefined => main
  else main

/-- The first loop of `Trace::communicate`: compute `main_state` over the
connected pins, starting from `Undefined`. -/
def Trace.resolve (link : List Nat) (h : Nat → Pin) : State :=
  link.foldl (resolveStep h) State.Undefined

/-- One step of the second loop of `Trace::communicate`: write the resolved
state `m` into one connected pin if its type is not Output. -/
def Trace.writeStep (m : State) (hh : Nat → Pin) (pid : Nat) : Nat → Pin :=
  if (hh pid).pin_type ≠ PinType.Output then
    Function.update hh pid { hh pid with state := m }
  else hh

/-- `Trace::communicate`: resolve the bus state, then write it to every
connected non-Output pin. -/
def Trace.communicate (link : List Nat) (h : Nat → Pin) : Nat → Pin :=
  link.foldl (Trace.writeStep (Trace.resolve link h)) h

/-- Whether pin `pid` is an Output pin driving High (as a Bool, for the
spec-side description of the resolution). -/
def outHigh (h : Nat → Pin) (pid : Nat) : Bool :=
  ((h pid).pin_type == PinType.Output) && ((h pid).state == State.High)

/-- Whether pin `pid` is an Output pin driving Low. -/
def outLow (h : Nat → Pin) (pid : Nat) : Bool :=
  ((h pid).pin_type == PinType.Output) && ((h pid).state == State.Low)

/-- The resolved state as the spec words it: High if any connected Output
pin is High, otherwise Low if any connected Output pin is Low, otherwise
Undefined. -/
def Trace.resolvedSpec (link : List Nat) (h : Nat → Pin) : State :=
  if link.any (outHigh h) then State.High
  else if link.any (outLow h) then State.Low
  else State.Undefined

/-! ## Board (src/board.rs)

The board owns traces and sockets in creation order (`Vec` push order).
Each trace is a list of pin ids into the shared pin heap.  A socket forwards
`run(dt)` to the chip plugged into it (or does nothing when empty); from the
board's point of view (`Box<dyn Chip>`) a socket's `run` is an arbitrary
transformation of the shared pin heap, parameterised by the elapsed time,
so sockets are embedded as opaque functions.  `Duration` is embedded as
nanoseconds (`Nat`). -/

structure BoardM where
  traces : List (List Nat)
  sockets : List (Nat → (Nat → Pin) → (Nat → Pin))

/-- Phase 1 of `Board::run`: `for trc in &mut self.traces { trc.communicate() }`. -/
def Board.runTraces (ts : List (List Nat)) (h : Nat → Pin) : Nat → Pin :=
  ts.foldl (fun hh t => Trace.communicate t hh) h

/-- Phase 2 of `Board::run`: `for skt in &mut self.sockets { skt.run(dt) }`. -/
def Board.runSockets (ss : List (Nat → (Nat → Pin) → (Nat → Pin))) (dt : Nat)
    (h : Nat → Pin) : Nat → Pin :=
  ss.foldl (fun hh s => s dt hh) h

/-- `Board::run(dt)`: resolve every trace, then run every socket. -/
def Board.run (b : BoardM) (dt : Nat) (h : Nat → Pin) : Nat → Pin :=
  Board.runSockets b.sockets dt (Board.runTraces b.traces h)

/-- An observable scheduling event of one tick: trace `i` resolved, or
socket `i` ran. -/
inductive Ev where
  | trc (i : Nat)
  | skt (i : Nat)
deriving DecidableEq, Repr

/-- Phase 1, instrumented with the list of events it performs (`i` is the
creation index of the first trace of `ts`). -/
def Board.runTracesLog : Nat → List (List Nat) → (Nat → Pin) → ((Nat → Pin) × List Ev)
  | _, [], h => (h, [])
  | i, t :: ts, h =>
    let r := Board.runTracesLog (i + 1) ts (Trace.communicate t h)
    (r.1, Ev.trc i :: r.2)

/-- Phase 2, instrumented with the list of events it performs. -/
def Board.runSocketsLog :
    Nat → List (Nat → (Nat → Pin) → (Nat → Pin)) → Nat → (Nat → Pin) →
      ((Nat → Pin) × List Ev)
  | _, [], _, h => (h, [])
  | i, s :: ss, dt, h =>
    let r := Board.runSocketsLog (i + 1) ss dt (s dt h)
    (r.1, Ev.skt i :: r.2)

/-- `Board::run(dt)` instrumented with the sequence of scheduling events of
the tick, in execution order. -/
def Board.runLog (b : BoardM) (dt : Nat) (h : Nat → Pin) : ((Nat → Pin) × List Ev) :=
  let rt := Board.runTracesLog 0 b.traces h
  let rs := Board.runSocketsLog 0 b.sockets dt rt.1
  (rs.1, rt.2 ++ rs.2)

/-- The loop of `Board::run_during(duration, step)`, with an explicit fuel
bound on the number of iterations:
`while elapsed < duration { self.run(step); elapsed += step }`.
Returns `some (finalHeap, tickCount, finalElapsed)` when the loop exits
within `fuel` iterations, `none` otherwise. -/
def runDuringAux (b : BoardM) (step duration : Nat) :
    Nat → Nat → (Nat → Pin) → Option ((Nat → Pin) × Nat × Nat)
  | 0, elapsed, h =>
    if elapsed < duration then none else some (h, 0, elapsed)
  | fuel + 1, elapsed, h =>
    if elapsed < duration then
      match runDuringAux b step duration fuel (elapsed + step) (Board.run b step h) with
      | none => none
      | some (h2, n, e2) => some (h2, n + 1, e2)
    else some (h, 0, elapsed)

/-- `Board::run_during(duration, step)`, starting from `elapsed = 0`. -/
def Board.run_during (b : BoardM) (duration step fuel : Nat) (h : Nat → Pin) :
    Option ((Nat → Pin) × Nat × Nat) :=
  runDuringAux b step duration fuel 0 h

/-- A concrete empty board, a concrete heap, and a concrete pin map used by
the witness theorems. -/
def board0 : BoardM := ⟨[], []⟩

def heap0 : Nat → Pin := fun _ => ⟨PinType.Input, State.Undefined⟩

/-! ## Gate chips (src/chip/gates.rs)

Each 14-pin gate chip owns a `[Rc<RefCell<Pin>>; 14]` array; its `run` only
reads and writes pin states, so it is embedded as a function on the pin
array, 0-based like the Rust indices (Rust pin number k = index k - 1).
The per-gate expressions below are the bodies of the `if .. {High} else
{Low}` (resp. inverted) assignments of the source. -/

def or2 (a b : State) : State :=
  if a = State.High ∨ b = State.High then State.High else State.Low

def and2 (a b : State) : State :=
  if a = State.High ∧ b = State.High then State.High else State.Low

def nand2 (a b : State) : State :=
  if a = State.High ∧ b = State.High then State.Low else State.High

def nor2 (a b : State) : State :=
  if a = State.High ∨ b = State.High then State.Low else State.High

def not1 (a : State) : State :=
  if a = State.High then State.Low else State.High

def and3 (a b c : State) : State :=
  if a = State.High ∧ b = State.High ∧ c = State.High then State.High else State.Low

def nand3 (a b c : State) : State :=
  if a = State.High ∧ b = State.High ∧ c = State.High then State.Low else State.High

/-- `Gate3InputNor` computes its outputs by testing that every input is Low
(not by negating an or of High tests). -/
def nor3 (a b c : State) : State :=
  if a = State.Low ∧ b = State.Low ∧ c = State.Low then State.High else State.Low

/-- The power precondition shared by every 14-pin gate chip: GND (Rust
pin 7, index 6) reads Low and VCC (Rust pin 14, index 13) reads High. -/
abbrev GatePowered (p : Fin 14 → Pin) : Prop :=
  (p 6).state = State.Low ∧ (p 13).state = State.High

/-- `GateOr::run`. -/
def GateOr.run (pin : Fin 14 → Pin) : Fin 14 → Pin :=
  if (pin 6).state = State.Low ∧ (pin 13).state = State.High then
    let p := setState pin 2 (or2 (pin 0).state (pin 1).state)
    let p := setState p 5 (or2 (p 3).state (p 4).state)
    let p := setState p 10 (or2 (p 11).state (p 12).state)
    setState p 7 (or2 (p 8).state (p 9).state)
  else
    fun i => { pin i with state := State.Low }

/-- `GateAnd::run`. -/
def GateAnd.run (pin : Fin 14 → Pin) : Fin 14 → Pin :=
  if (pin 6).state = State.Low ∧ (pin 13).state = State.High then
    let p := setState pin 2 (and2 (pin 0).state (pin 1).state)
    let p := setState p 5 (and2 (p 3).state (p 4).state)
    let p := setState p 10 (and2 (p 11).state (p 12).state)
    setState p 7 (and2 (p 8).state (p 9).state)
  else
    fun i => { pin i with state := State.Undefined }

/-- `Gate3InputAnd::run`. -/
def Gate3InputAnd.run (pin : Fin 14 → Pin) : Fin 14 → Pin :=
  if (pin 6).state = State.Low ∧ (pin 13).state = State.High then
    let p := setState pin 11 (and3 (pin 0).state (pin 1).state (pin 12).state)
    let p := setState p 5 (and3 (p 2).state (p 3).state (p 4).state)
    setState p 7 (and3 (p 10).state (p 9).state (p 8).state)
  else
    fun i => { pin i with state := State.Undefined }

/-- `GateNot::run`. -/
def GateNot.run (pin : Fin 14 → Pin) : Fin 14 → Pin :=
  if (pin 6).state = State.Low ∧ (pin 13).state = State.High then
    let p := setState pin 1 (not1 (pin 0).state)
    let p := setState p 3 (not1 (p 2).state)
    let p := setState p 5 (not1 (p 4).state)
    let p := setState p 11 (not1 (p 12).state)
    let p := setState p 9 (not1 (p 10).state)
    setState p 7 (not1 (p 8).state)
  else
    fun i => { pin i with state := State.Undefined }

/-- `GateNor::run`. -/
def GateNor.run (pin : Fin 14 → Pin) : Fin 14 → Pin :=
  if (pin 6).state = State.Low ∧ (pin 13).state = State.High then
    let p := setState pin 0 (nor2 (pin 1).state (pin 2).state)
    let p := setState p 3 (nor2 (p 4).state (p 5).state)
    let p := setState p 9 (nor2 (p 8).state (p 7).state)
    setState p 12 (nor2 (p 11).state (p 10).state)
  else
    fun i => { pin i with state := State.Low }

/-- `Gate3InputNor::run`. -/
def Gate3InputNor.run (pin : Fin 14 → Pin) : Fin 14 → Pin :=
  if (pin 6).state = State.Low ∧ (pin 13).state = State.High then
    let p := setState pin 11 (nor3 (pin 0).state (pin 1).state (pin 12).state)
    let p := setState p 5 (nor3 (p 2).state (p 3).state (p 4).state)
    setState p 7 (nor3 (p 10).state (p 9).state (p 8).state)
  else
    fun i => { pin i with state := State.Low }

/-- `GateNand::run`. -/
def GateNand.run (pin : Fin 14 → Pin) : Fin 14 → Pin :=
  if (pin 6).state = State.Low ∧ (pin 13).state = State.High then
    let p := setState pin 2 (nand2 (pin 0).state (pin 1).state)
    let p := setState p 5 (nand2 (p 3).state (p 4).state)
    let p := setState p 10 (nand2 (p 11).state (p 12).state)
    setState p 7 (nand2 (p 8).state (p 9).state)
  else
    fun i => { pin i with state := State.Undefined }

/-- `Gate3InputNand::run`. -/
def Gate3InputNand.run (pin : Fin 14 → Pin) : Fin 14 → Pin :=
  if (pin 6).state = State.Low ∧ (pin 13).state = State.High then
    let p := setState pin 11 (nand3 (pin 0).state (pin 1).state (pin 12).state)
    let p := setState p 5 (nand3 (p 2).state (p 3).state (p 4).state)
    setState p 7 (nand3 (p 10).state (p 9).state (p 8).state)
  else
    fun i => { pin i with state := State.Undefined }

/-- Boolean reading of a state (High ↦ true, Low and Undefined ↦ false),
used to phrase the documented truth tables. -/
def State.isHigh : State → Bool
  | State.High => true
  | _ => false

/-- The state encoding a boolean output level. -/
def stateOfBool (b : Bool) : State :=
  if b then State.High else State.Low

/-- A state restricted to the two driven logic levels. -/
abbrev binary (s : State) : Prop := s = State.High ∨ s = State.Low

/-- All logic-input pins of the 2-input quad gates (`GateOr`, `GateAnd`,
`GateNand`) are High or Low: Rust pins 1,2,4,5,9,10,12,13. -/
abbrev quadInputsBinary (p : Fin 14 → Pin) : Prop :=
  binary (p 0).state ∧ binary (p 1).state ∧ binary (p 3).state ∧ binary (p 4).state ∧
  binary (p 8).state ∧ binary (p 9).state ∧ binary (p 11).state ∧ binary (p 12).state

/-- All logic-input pins of `GateNor`: Rust pins 2,3,5,6,8,9,11,12. -/
abbrev norInputsBinary (p : Fin 14 → Pin) : Prop :=
  binary (p 1).state ∧ binary (p 2).state ∧ binary (p 4).state ∧ binary (p 5).state ∧
  binary (p 7).state ∧ binary (p 8).state ∧ binary (p 10).state ∧ binary (p 11).state

/-- All logic-input pins of `GateNot`: Rust pins 1,3,5,9,11,13 (pin 13 is
also VCC-adjacent input D). -/
abbrev notInputsBinary (p : Fin 14 → Pin) : Prop :=
  binary (p 0).state ∧ binary (p 2).state ∧ binary (p 4).state ∧ binary (p 8).state ∧
  binary (p 10).state ∧ binary (p 12).state

/-- All logic-input pins of the 3-input triple gates: Rust pins
1,2,3,4,5,9,10,11,13. -/
abbrev tripleInputsBinary (p : Fin 14 → Pin) : Prop :=
  binary (p 0).state ∧ binary (p 1).state ∧ binary (p 2).state ∧ binary (p 3).state ∧
  binary (p 4).state ∧ binary (p 8).state ∧ binary (p 9).state ∧ binary (p 10).state ∧
  binary (p 12).state

/-- Documented truth table of `GateOr` (outputs at Rust pins 3,6,11,8). -/
abbrev GateOr.truthTable (p : Fin 14 → Pin) : Prop :=
  ((GateOr.run p) 2).state = stateOfBool ((p 0).state.isHigh || (p 1).state.isHigh) ∧
  ((GateOr.run p) 5).state = stateOfBool ((p 3).state.isHigh || (p 4).state.isHigh) ∧
  ((GateOr.run p) 10).state = stateOfBool ((p 11).state.isHigh || (p 12).state.isHigh) ∧
  ((GateOr.run p) 7).state = stateOfBool ((p 8).state.isHigh || (p 9).state.isHigh)

/-- Documented truth table of `GateAnd`. -/
abbrev GateAnd.truthTable (p : Fin 14 → Pin) : Prop :=
  ((GateAnd.run p) 2).state = stateOfBool ((p 0).state.isHigh && (p 1).state.isHigh) ∧
  ((GateAnd.run p) 5).state = stateOfBool ((p 3).state.isHigh && (p 4).state.isHigh) ∧
  ((GateAnd.run p) 10).state = stateOfBool ((p 11).state.isHigh && (p 12).state.isHigh) ∧
  ((GateAnd.run p) 7).state = stateOfBool ((p 8).state.isHigh && (p 9).state.isHigh)

/-- Documented truth table of `GateNand`. -/
abbrev GateNand.truthTable (p : Fin 14 → Pin) : Prop :=
  ((GateNand.run p) 2).state = stateOfBool (!((p 0).state.isHigh && (p 1).state.isHigh)) ∧
  ((GateNand.run p) 5).state = stateOfBool (!((p 3).state.isHigh && (p 4).state.isHigh)) ∧
  ((GateNand.run p) 10).state = stateOfBool (!((p 11).state.isHigh && (p 12).state.isHigh)) ∧
  ((GateNand.run p) 7).state = stateOfBool (!((p 8).state.isHigh && (p 9).state.isHigh))

/-- Documented truth table of `GateNor` (outputs at Rust pins 1,4,10,13). -/
abbrev GateNor.truthTable (p : Fin 14 → Pin) : Prop :=
  ((GateNor.run p) 0).state = stateOfBool (!((p 1).state.isHigh || (p 2).state.isHigh)) ∧
  ((GateNor.run p) 3).state = stateOfBool (!((p 4).state.isHigh || (p 5).state.isHigh)) ∧
  ((GateNor.run p) 9).state = stateOfBool (!((p 8).state.isHigh || (p 7).state.isHigh)) ∧
  ((GateNor.run p) 12).state = stateOfBool (!((p 11).state.isHigh || (p 10).state.isHigh))

/-- Documented truth table of `GateNot` (outputs at Rust pins 2,4,6,12,10,8). -/
abbrev GateNot.truthTable (p : Fin 14 → Pin) : Prop :=
  ((GateNot.run p) 1).state = stateOfBool (!(p 0).state.isHigh) ∧
  ((GateNot.run p) 3).state = stateOfBool (!(p 2).state.isHigh) ∧
  ((GateNot.run p) 5).state = stateOfBool (!(p 4).state.isHigh) ∧
  ((GateNot.run p) 11).state = stateOfBool (!(p 12).state.isHigh) ∧
  ((GateNot.run p) 9).state = stateOfBool (!(p 10).state.isHigh) ∧
  ((GateNot.run p) 7).state = stateOfBool (!(p 8).state.isHigh)

/-- Documented truth table of `Gate3InputAnd` (outputs at Rust pins 12,6,8). -/
abbrev Gate3InputAnd.truthTable (p : Fin 14 → Pin) : Prop :=
  ((Gate3InputAnd.run p) 11).state =
    stateOfBool ((p 0).state.isHigh && (p 1).state.isHigh && (p 12).state.isHigh) ∧
  ((Gate3InputAnd.run p) 5).state =
    stateOfBool ((p 2).state.isHigh && (p 3).state.isHigh && (p 4).state.isHigh) ∧
  ((Gate3InputAnd.run p) 7).state =
    stateOfBool ((p 10).state.isHigh && (p 9).state.isHigh && (p 8).state.isHigh)

/-- Documented truth table of `Gate3InputNand`. -/
abbrev Gate3InputNand.truthTable (p : Fin 14 → Pin) : Prop :=
  ((Gate3InputNand.run p) 11).state =
    stateOfBool (!((p 0).state.isHigh && (p 1).state.isHigh && (p 12).state.isHigh)) ∧
  ((Gate3InputNand.run p) 5).state =
    stateOfBool (!((p 2).state.isHigh && (p 3).state.isHigh && (p 4).state.isHigh)) ∧
  ((Gate3InputNand.run p) 7).state =
    stateOfBool (!((p 10).state.isHigh && (p 9).state.isHigh && (p 8).state.isHigh))

/-- Documented truth table of `Gate3InputNor`. -/
abbrev Gate3InputNor.truthTable (p : Fin 14 → Pin) : Prop :=
  ((Gate3InputNor.run p) 11).state =
    stateOfBool (!((p 0).state.isHigh || (p 1).state.isHigh || (p 12).state.isHigh)) ∧
  ((Gate3InputNor.run p) 5).state =
    stateOfBool (!((p 2).state.isHigh || (p 3).state.isHigh || (p 4).state.isHigh)) ∧
  ((Gate3InputNor.run p) 7).state =
    stateOfBool (!((p 10).state.isHigh || (p 9).state.isHigh || (p 8).state.isHigh))

/-- A concrete powered gate pin array (GND Low, VCC High, every other pin
Low) for the witness theorems. -/
def gatePins0 : Fin 14 → Pin :=
  fun i => if i = 13 then ⟨PinType.Input, State.High⟩ else ⟨PinType.Input, State.Low⟩

/-- A concrete unpowered gate pin array (every pin Undefined). -/
def gatePinsU : Fin 14 → Pin :=
  fun _ => ⟨PinType.Input, State.Undefined⟩

/-! ## Memory chips (src/chip/memory.rs)

22-pin chips, 0-based indices (Rust pin k = index k - 1): CS = 0, WE = 1,
OE = 2, A0..A6 = 3..9, GND = 10, A7 = 11, IO0..IO7 = 12..19, VCC = 21. -/

/-- `u8::from(self.pin[i].borrow().state == State::High)`. -/
def bit22 (pins : Fin 22 → Pin) (i : Fin 22) : Nat :=
  if (pins i).state = State.High then 1 else 0

/-- `Ram256B::get_address` (also `Rom256B::get_address`, which is the same
code): the loop `for i in 3..10 { addr += bit << (i - 3) }` plus the final
`addr += bit << 7` from pin index 11, unrolled. -/
def memGetAddress (pins : Fin 22 → Pin) : Nat :=
  bit22 pins 3 + bit22 pins 4 * 2 + bit22 pins 5 * 4 + bit22 pins 6 * 8 +
  bit22 pins 7 * 16 + bit22 pins 8 * 32 + bit22 pins 9 * 64 + bit22 pins 11 * 128

/-- The assembled address as an index into the 256-byte array; in the source
the address is a `u8`, so it is below 256 by construction. -/
def memAddrOf (pins : Fin 22 → Pin) : Fin 256 :=
  ⟨memGetAddress pins, by
    have h3 : bit22 pins 3 ≤ 1 := by unfold bit22; split <;> omega
    have h4 : bit22 pins 4 ≤ 1 := by unfold bit22; split <;> omega
    have h5 : bit22 pins 5 ≤ 1 := by unfold bit22; split <;> omega
    have h6 : bit22 pins 6 ≤ 1 := by unfold bit22; split <;> omega
    have h7 : bit22 pins 7 ≤ 1 := by unfold bit22; split <;> omega
    have h8 : bit22 pins 8 ≤ 1 := by unfold bit22; split <;> omega
    have h9 : bit22 pins 9 ≤ 1 := by unfold bit22; split <;> omega
    have h11 : bit22 pins 11 ≤ 1 := by unfold bit22; split <;> omega
    unfold memGetAddress
    omega⟩

/-- `Ram256B::get_data`: the loop `for i in 12..20 { addr += bit << (i - 12) }`,
unrolled. -/
def memGetData (pins : Fin 22 → Pin) : Nat :=
  bit22 pins 12 + bit22 pins 13 * 2 + bit22 pins 14 * 4 + bit22 pins 15 * 8 +
  bit22 pins 16 * 16 + bit22 pins 17 * 32 + bit22 pins 18 * 64 + bit22 pins 19 * 128

/-- `for i in lo..hi { self.pin[i].borrow_mut().pin_type = t }`. -/
def setTypesRange (pins : Fin 22 → Pin) (lo hi : Nat) (t : PinType) : Fin 22 → Pin :=
  fun i => if lo ≤ (i : Nat) ∧ (i : Nat) < hi then { pins i with pin_type := t } else pins i

/-- The eight `self.pin[12 + k].borrow_mut().state = State::from_u8(byte, k)`
writes of the output-enable path. -/
def memDriveData (pins : Fin 22 → Pin) (b : Nat) : Fin 22 → Pin :=
  let p := setState pins 12 (State.from_u8 b 0)
  let p := setState p 13 (State.from_u8 b 1)
  let p := setState p 14 (State.from_u8 b 2)
  let p := setState p 15 (State.from_u8 b 3)
  let p := setState p 16 (State.from_u8 b 4)
  let p := setState p 17 (State.from_u8 b 5)
  let p := setState p 18 (State.from_u8 b 6)
  setState p 19 (State.from_u8 b 7)

/-- `Ram256B`: pins, the 256-byte backing array, and the persisted powered
flag. -/
structure Ram256B where
  pin : Fin 22 → Pin
  ram : Fin 256 → Nat
  powered : Bool

/-- The Write-Enable branch of `Ram256B::run` (WE is active low): switch the
IO pins (indices 12..19) to Input and latch the data byte into the backing
array at the current address. -/
def Ram256B.runWriteEnable (c : Ram256B) : Ram256B :=
  if (c.pin 1).state = State.Low then
    let pins := setTypesRange c.pin 12 20 PinType.Input
    { c with
      pin := pins,
      ram := Function.update c.ram (memAddrOf pins) (memGetData pins) }
  else c

/-- The Output-Enable branch of `Ram256B::run` (OE is active low): switch
indices 12..20 to Output (the source range `12..21` also covers the unused
pin 21) and drive the byte at the current address onto the IO pins. -/
def Ram256B.runOutputEnable (c : Ram256B) : Ram256B :=
  if (c.pin 2).state = State.Low then
    let pins := setTypesRange c.pin 12 21 PinType.Output
    { c with pin := memDriveData pins (c.ram (memAddrOf pins)) }
  else c

/-- The Chip-Select part of `Ram256B::run` (CS is active low): when selected
run the WE branch then the OE branch; otherwise set the IO pin types to
Undefined. -/
def Ram256B.runSelected (c : Ram256B) : Ram256B :=
  if (c.pin 0).state = State.Low then
    Ram256B.runOutputEnable (Ram256B.runWriteEnable c)
  else
    { c with pin := setTypesRange c.pin 12 20 PinType.Undefined }

/-- `Ram256B::run`.  `random::<u8>()` is modelled by the oracle `rnd`
supplying the bytes written by the power-up randomization loop. -/
def Ram256B.run (rnd : Fin 256 → Nat) (c : Ram256B) : Ram256B :=
  if (c.pin 10).state = State.Low ∧ (c.pin 21).state = State.High then
    Ram256B.runSelected
      (if c.powered = false then { c with ram := rnd, powered := true } else c)
  else if c.powered = true then
    { c with pin := fun i => { c.pin i with state := State.Undefined }, powered := false }
  else c

/-- `Rom256B`: pins and the preloaded 256-byte array. -/
structure Rom256B where
  pin : Fin 22 → Pin
  rom : Fin 256 → Nat

/-- `Rom256B::run`: powered and selected, an Output-Enable read drives the
preloaded byte at the current address; deselected, the IO pin types become
Undefined; unpowered, every pin state becomes Undefined.  There is no write
path and no powered flag. -/
def Rom256B.run (c : Rom256B) : Rom256B :=
  if (c.pin 10).state = State.Low ∧ (c.pin 21).state = State.High then
    if (c.pin 0).state = State.Low then
      if (c.pin 2).state = State.Low then
        let pins := setTypesRange c.pin 12 21 PinType.Output
        { c with pin := memDriveData pins (c.rom (memAddrOf pins)) }
      else c
    else { c with pin := setTypesRange c.pin 12 20 PinType.Undefined }
  else
    { c with pin := fun i => { c.pin i with state := State.Undefined } }

/-- Memory-chip power precondition: GND (index 10) Low and VCC (index 21)
High. -/
abbrev MemPowerPins (pins : Fin 22 → Pin) : Prop :=
  (pins 10).state = State.Low ∧ (pins 21).state = State.High

/-- The address pins A0..A7 encode `addr` bit for bit. -/
abbrev AddrPins (pins : Fin 22 → Pin) (addr : Nat) : Prop :=
  (pins 3).state = State.from_u8 addr 0 ∧ (pins 4).state = State.from_u8 addr 1 ∧
  (pins 5).state = State.from_u8 addr 2 ∧ (pins 6).state = State.from_u8 addr 3 ∧
  (pins 7).state = State.from_u8 addr 4 ∧ (pins 8).state = State.from_u8 addr 5 ∧
  (pins 9).state = State.from_u8 addr 6 ∧ (pins 11).state = State.from_u8 addr 7

/-- The IO pins IO0..IO7 encode the byte `b` bit for bit. -/
abbrev DataPins (pins : Fin 22 → Pin) (b : Nat) : Prop :=
  (pins 12).state = State.from_u8 b 0 ∧ (pins 13).state = State.from_u8 b 1 ∧
  (pins 14).state = State.from_u8 b 2 ∧ (pins 15).state = State.from_u8 b 3 ∧
  (pins 16).state = State.from_u8 b 4 ∧ (pins 17).state = State.from_u8 b 5 ∧
  (pins 18).state = State.from_u8 b 6 ∧ (pins 19).state = State.from_u8 b 7

/-- RAM write-cycle pin configuration: powered, CS Low, WE Low, OE High,
address pins encoding `addr`, IO pin states encoding `b`. -/
abbrev RamWritePins (pins : Fin 22 → Pin) (addr b : Nat) : Prop :=
  MemPowerPins pins ∧ (pins 0).state = State.Low ∧ (pins 1).state = State.Low ∧
  (pins 2).state = State.High ∧ AddrPins pins addr ∧ DataPins pins b

/-- RAM read-cycle pin configuration: powered, CS Low, WE High, OE Low,
address pins encoding `addr`. -/
abbrev RamReadPins (pins : Fin 22 → Pin) (addr : Nat) : Prop :=
  MemPowerPins pins ∧ (pins 0).state = State.Low ∧ (pins 1).state = State.High ∧
  (pins 2).state = State.Low ∧ AddrPins pins addr

/-- ROM read-cycle pin configuration: powered, CS Low, OE Low, address pins
encoding `addr`. -/
abbrev RomReadPins (pins : Fin 22 → Pin) (addr : Nat) : Prop :=
  MemPowerPins pins ∧ (pins 0).state = State.Low ∧ (pins 2).state = State.Low ∧
  AddrPins pins addr

/-- Concrete memory-chip states for the witness theorems: a write cycle at
address 0 with byte 0 (OE and VCC High, everything else Low), the matching
read cycle (WE and VCC High, everything else Low), an all-Undefined pin
array, and a zero oracle. -/
def ramWPins : Fin 22 → Pin :=
  fun i => if i = 2 ∨ i = 21 then ⟨PinType.Input, State.High⟩ else ⟨PinType.Input, State.Low⟩

def ramRPins : Fin 22 → Pin :=
  fun i => if i = 1 ∨ i = 21 then ⟨PinType.Input, State.High⟩ else ⟨PinType.Input, State.Low⟩

def undefPins22 : Fin 22 → Pin := fun _ => ⟨PinType.Input, State.Undefined⟩

def rnd0 : Fin 256 → Nat := fun _ => 0

def ramW0 : Ram256B := ⟨ramWPins, fun _ => 0, true⟩

/-- The RAM state used for the witness read cycle: the backing array left by
the witness write cycle, with the pins re-driven to the read configuration. -/
def ramRead0 : Ram256B := ⟨ramRPins, (Ram256B.run rnd0 ramW0).ram, true⟩

/-- An unpowered-but-power-present RAM and a powered-but-power-absent RAM
for the power-semantics witnesses. -/
def ramOn0 : Ram256B := ⟨ramWPins, fun _ => 0, false⟩

def ramOff0 : Ram256B := ⟨undefPins22, fun _ => 0, true⟩

def rom0 : Rom256B :=
  ⟨fun i => if i = 21 then ⟨PinType.Input, State.High⟩ else ⟨PinType.Input, State.Low⟩,
   fun _ => 0⟩

/-! ## Generator (src/chip/generators.rs) and the public pin accessor -/

/-- `Generator`: the two-pin fixed source. -/
structure Generator where
  pin : Fin 2 → Pin

/-- `Generator::get_pin`: `if pin > 0 && pin <= 2 { Ok(self.pin[pin-1]) }
else { Err("Pin out of bounds") }`. -/
def Generator.get_pin (g : Generator) (i : Nat) : Except String Pin :=
  if h : 0 < i ∧ i ≤ 2 then Except.ok (g.pin ⟨i - 1, by omega⟩)
  else Except.error "Pin out of bounds"

/-- Modelled from the spec: the default public pin accessor of the `Chip`
trait (declared in src/chip/mod.rs, which is not among the provided
sources).  Per the spec it fails with an out-of-bounds condition, reported
to the caller and never fatal, exactly when the index is outside
[1, pin_count]; inside the range it returns the pin that the gate chips'
`_get_pin` reads from `self.pin[pin - 1]`.  Instantiated for the 14-pin
gate chips. -/
def gateGetPin (p : Fin 14 → Pin) (i : Nat) : Except String Pin :=
  if h : 0 < i ∧ i ≤ 14 then Except.ok (p ⟨i - 1, by omega⟩)
  else Except.error "Pin out of bounds"

/-- A concrete generator (first pin High Output, second Low Output, as
`Generator::new` builds it). -/
def gen0 : Generator :=
  ⟨fun i => if i = 0 then ⟨PinType.Output, State.High⟩ else ⟨PinType.Output, State.Low⟩⟩

end VirtIc

namespace VirtIc

/-! ## Theorems about Trace resolution -/

theorem resolve_foldl (h : Nat → Pin) :
    ∀ (link : List Nat) (acc : State),
      link.foldl (resolveStep h) acc =
        if link.any (outHigh h) then State.High
        else if link.any (outLow h) then
          (if acc = State.Undefined then State.Low else acc)
        else acc := by
  intro link
  induction link with
  | nil => intro acc; simp
  | cons a l ih =>
    intro acc
    simp only [List.foldl_cons, List.any_cons, ih]
    by_cases hpt : (h a).pin_type = PinType.Output
    · cases hs : (h a).state <;>
        simp [resolveStep, outHigh, outLow, hpt, hs] <;>
        split_ifs <;> simp_all
    · simp [resolveStep, outHigh, outLow, hpt]

theorem resolve_eq_spec (link : List Nat) (h : Nat → Pin) :
    Trace.resolve link h = Trace.resolvedSpec link h := by
  unfold Trace.resolve Trace.resolvedSpec
  rw [resolve_foldl]
  split_ifs <;> simp_all

theorem writeStep_apply_ne (m : State) (hh : Nat → Pin) (a q : Nat) (hq : q ≠ a) :
    (Trace.writeStep m hh a) q = hh q := by
  unfold Trace.writeStep
  split_ifs with ht
  · rw [Function.update_noteq hq]
  · rfl

theorem writeStep_apply_self (m : State) (hh : Nat → Pin) (a : Nat) :
    (Trace.writeStep m hh a) a =
      if (hh a).pin_type = PinType.Output then hh a else { hh a with state := m } := by
  by_cases ht : (hh a).pin_type = PinType.Output
  · simp [Trace.writeStep, ht]
  · simp [Trace.writeStep, ht, Function.update_same]

theorem writeStep_pin_type (m : State) (hh : Nat → Pin) (a q : Nat) :
    ((Trace.writeStep m hh a) q).pin_type = (hh q).pin_type := by
  by_cases hq : q = a
  · subst hq
    rw [writeStep_apply_self]
    split_ifs <;> rfl
  · rw [writeStep_apply_ne m hh a q hq]

theorem comm_fold (m : State) :
    ∀ (link : List Nat) (h : Nat → Pin) (pid : Nat),
      (link.foldl (Trace.writeStep m) h) pid =
        if pid ∈ link ∧ (h pid).pin_type ≠ PinType.Output then
          { h pid with state := m }
        else h pid := by
  intro link
  induction link with
  | nil => intro h pid; simp
  | cons a l ih =>
    intro h pid
    simp only [List.foldl_cons, ih, writeStep_pin_type, List.mem_cons]
    by_cases hpo : (h pid).pin_type = PinType.Output
    · simp only [hpo, ne_eq, not_true_eq_false, and_false, if_false]
      by_cases hpa : pid = a
      · subst hpa; rw [writeStep_apply_self, if_pos hpo]
      · rw [writeStep_apply_ne m h a pid hpa]
    · by_cases hpa : pid = a
      · subst hpa
        rw [writeStep_apply_self, if_neg hpo]
        simp only [true_or, hpo, ne_eq, not_false_eq_true, and_true, if_true]
        split_ifs <;> rfl
      · rw [writeStep_apply_ne m h a pid hpa]
        simp [hpa, hpo]

/-- Claim C1: `Trace::communicate` computes one resolved state from only the
connected Output pins — High if any of them is High, otherwise Low if any of
them is Low, otherwise Undefined (`Trace.resolvedSpec`) — and writes that
state into every connected pin whose type is not Output, leaving every
Output pin (and every pin not on the trace) unchanged. -/
theorem trace_communicate_spec (link : List Nat) (h : Nat → Pin) :
    Trace.resolve link h = Trace.resolvedSpec link h ∧
    ∀ pid : Nat,
      Trace.communicate link h pid =
        if pid ∈ link ∧ (h pid).pin_type ≠ PinType.Output then
          { h pid with state := Trace.resolvedSpec link h }
        else h pid := by
  refine ⟨resolve_eq_spec link h, fun pid => ?_⟩
  unfold Trace.communicate
  rw [comm_fold, resolve_eq_spec]

/-! ## Theorems about the Board scheduler -/

theorem runTracesLog_eq (ts : List (List Nat)) :
    ∀ (i : Nat) (h : Nat → Pin),
      Board.runTracesLog i ts h =
        (Board.runTraces ts h, (List.range' i ts.length).map Ev.trc) := by
  induction ts with
  | nil => intro i h; simp [Board.runTracesLog, Board.runTraces]
  | cons t ts ih =>
    intro i h
    simp [Board.runTracesLog, Board.runTraces, ih, List.range'_succ, List.foldl_cons]

theorem runSocketsLog_eq (ss : List (Nat → (Nat → Pin) → (Nat → Pin))) :
    ∀ (i dt : Nat) (h : Nat → Pin),
      Board.runSocketsLog i ss dt h =
        (Board.runSockets ss dt h, (List.range' i ss.length).map Ev.skt) := by
  induction ss with
  | nil => intro i dt h; simp [Board.runSocketsLog, Board.runSockets]
  | cons s ss ih =>
    intro i dt h
    simp [Board.runSocketsLog, Board.runSockets, ih, List.range'_succ, List.foldl_cons]

/-- Claim C2: one tick is strictly two-phase and sequential.  The
instrumented tick produces exactly the event list
"trace 0, trace 1, …, trace (nTraces-1), socket 0, …, socket (nSockets-1)"
(creation order within each phase, every trace resolution before any socket
run), and its final heap is the heap computed by `Board.run`. -/
theorem board_run_two_phase (b : BoardM) (dt : Nat) (h : Nat → Pin) :
    Board.runLog b dt h =
      (Board.run b dt h,
        (List.range b.traces.length).map Ev.trc ++
          (List.range b.sockets.length).map Ev.skt) := by
  unfold Board.runLog Board.run
  simp only [runTracesLog_eq, runSocketsLog_eq, List.range_eq_range']

/-! ## Theorems about run_during (tick counting and termination) -/

theorem runDuringAux_exit (b : BoardM) (step duration : Nat) (fuel elapsed : Nat)
    (h : Nat → Pin) (hge : duration ≤ elapsed) :
    runDuringAux b step duration fuel elapsed h = some (h, 0, elapsed) := by
  cases fuel <;> simp [runDuringAux, Nat.not_lt.mpr hge]

theorem runDuringAux_spec (b : BoardM) (step duration : Nat) (_hstep : 0 < step) :
    ∀ (fuel elapsed : Nat) (h : Nat → Pin),
      duration ≤ elapsed + fuel * step →
      ∃ n : Nat,
        runDuringAux b step duration fuel elapsed h =
          some ((Board.run b step)^[n] h, n, elapsed + n * step) ∧
        duration ≤ elapsed + n * step ∧
        ∀ m : Nat, duration ≤ elapsed + m * step → n ≤ m := by
  intro fuel
  induction fuel with
  | zero =>
    intro elapsed h hle
    simp only [Nat.zero_mul, Nat.add_zero] at hle
    refine ⟨0, ?_, by simpa using hle, fun m _ => Nat.zero_le m⟩
    rw [runDuringAux_exit b step duration 0 elapsed h hle]
    simp
  | succ fuel ih =>
    intro elapsed h hle
    by_cases hlt : elapsed < duration
    · have hle2 : duration ≤ (elapsed + step) + fuel * step := by
        have : elapsed + (fuel + 1) * step = (elapsed + step) + fuel * step := by
          rw [Nat.succ_mul]; omega
        omega
      obtain ⟨n, heq, hbound, hmin⟩ := ih (elapsed + step) (Board.run b step h) hle2
      refine ⟨n + 1, ?_, ?_, ?_⟩
      · simp only [runDuringAux, hlt, if_true, heq]
        rw [Function.iterate_succ_apply]
        have : elapsed + step + n * step = elapsed + (n + 1) * step := by
          rw [Nat.succ_mul]; omega
        rw [this]
      · rw [Nat.succ_mul]; omega
      · intro m hm
        match m with
        | 0 => simp at hm; omega
        | m + 1 =>
          have : duration ≤ elapsed + step + m * step := by
            rw [Nat.succ_mul] at hm; omega
          exact Nat.succ_le_succ (hmin m this)
    · refine ⟨0, ?_, by omega, fun m _ => Nat.zero_le m⟩
      rw [runDuringAux_exit b step duration (fuel + 1) elapsed h (by omega)]
      simp

/-- Claim C3: `Board::run_during(duration, step)` checks `elapsed < duration`
before each tick and adds `step` after it, so for `step > 0` (and enough
fuel to cover the loop) it performs exactly the least `n` with
`n * step ≥ duration` ticks, each tick being one call of `Board.run` with
`step`, ending at accumulated time `n * step`; in particular
`duration = 10, step = 3` performs exactly 4 ticks ending at time 12. -/
theorem run_during_tick_count :
    (∀ (b : BoardM) (h : Nat → Pin) (duration step fuel : Nat),
        0 < step → duration ≤ fuel * step →
        ∃ n : Nat,
          Board.run_during b duration step fuel h =
            some ((Board.run b step)^[n] h, n, n * step) ∧
          duration ≤ n * step ∧
          ∀ m : Nat, duration ≤ m * step → n ≤ m) ∧
    (∀ (b : BoardM) (h : Nat → Pin),
        Board.run_during b 10 3 4 h =
          some (Board.run b 3 (Board.run b 3 (Board.run b 3 (Board.run b 3 h))), 4, 12)) := by
  constructor
  · intro b h duration step fuel hstep hfuel
    have := runDuringAux_spec b step duration hstep fuel 0 h (by omega)
    simpa [Board.run_during] using this
  · intro b h
    rfl

theorem run_during_tick_count_witness :
    ∃ n : Nat,
      Board.run_during board0 10 3 4 heap0 =
        some ((Board.run board0 3)^[n] heap0, n, n * 3) ∧
      10 ≤ n * 3 ∧ ∀ m : Nat, 10 ≤ m * 3 → n ≤ m :=
  run_during_tick_count.1 board0 heap0 10 3 4 (by decide) (by decide)

theorem runDuringAux_zero_step (b : BoardM) (duration : Nat) :
    ∀ (fuel elapsed : Nat) (h : Nat → Pin), elapsed < duration →
      runDuringAux b 0 duration fuel elapsed h = none := by
  intro fuel
  induction fuel with
  | zero => intro elapsed h hlt; simp [runDuringAux, hlt]
  | succ fuel ih =>
    intro elapsed h hlt
    simp [runDuringAux, hlt, ih elapsed (Board.run b 0 h) hlt]

/-- Claim C10: `run_during(duration, step)` terminates (the loop exits for
some fuel bound) if and only if `step > 0` or `duration = 0`: a zero
duration performs no tick, and a zero step with positive duration leaves
`elapsed` at 0 forever, so the loop never exits. -/
theorem run_during_termination (b : BoardM) (h : Nat → Pin) (duration step : Nat) :
    (∃ (fuel : Nat) (r : (Nat → Pin) × Nat × Nat),
        Board.run_during b duration step fuel h = some r) ↔
      (0 < step ∨ duration = 0) := by
  constructor
  · intro ⟨fuel, r, hr⟩
    by_contra hcon
    push_neg at hcon
    obtain ⟨hstep, hdur⟩ := hcon
    have hstep0 : step = 0 := by omega
    subst hstep0
    rw [Board.run_during, runDuringAux_zero_step b duration fuel 0 h (by omega)] at hr
    exact Option.noConfusion hr
  · intro hc
    rcases hc with hstep | hdur
    · obtain ⟨n, heq, _, _⟩ :=
        runDuringAux_spec b step duration hstep duration 0 h
          (by calc duration = duration * 1 := by omega
                _ ≤ duration * step := Nat.mul_le_mul_left duration hstep
                _ = 0 + duration * step := by omega)
      exact ⟨duration, _, heq⟩
    · subst hdur
      exact ⟨0, (h, 0, 0), rfl⟩

/-! ## Theorems about the gate chips -/

theorem or2_isHigh (a b : State) : or2 a b = stateOfBool (a.isHigh || b.isHigh) := by
  cases a <;> cases b <;> rfl

theorem and2_isHigh (a b : State) : and2 a b = stateOfBool (a.isHigh && b.isHigh) := by
  cases a <;> cases b <;> rfl

theorem nand2_isHigh (a b : State) : nand2 a b = stateOfBool (!(a.isHigh && b.isHigh)) := by
  cases a <;> cases b <;> rfl

theorem nor2_isHigh (a b : State) : nor2 a b = stateOfBool (!(a.isHigh || b.isHigh)) := by
  cases a <;> cases b <;> rfl

theorem not1_isHigh (a : State) : not1 a = stateOfBool (!a.isHigh) := by
  cases a <;> rfl

theorem and3_isHigh (a b c : State) :
    and3 a b c = stateOfBool (a.isHigh && b.isHigh && c.isHigh) := by
  cases a <;> cases b <;> cases c <;> rfl

theorem nand3_isHigh (a b c : State) :
    nand3 a b c = stateOfBool (!(a.isHigh && b.isHigh && c.isHigh)) := by
  cases a <;> cases b <;> cases c <;> rfl

theorem nor3_isHigh (a b c : State) (ha : binary a) (hb : binary b) (hc : binary c) :
    nor3 a b c = stateOfBool (!(a.isHigh || b.isHigh || c.isHigh)) := by
  rcases ha with rfl | rfl <;> rcases hb with rfl | rfl <;> rcases hc with rfl | rfl <;> rfl

/-- Claim C4: for every gate chip, with GND Low, VCC High and every
logic-input pin High or Low, one `run` writes each output pin the
documented boolean function of that gate's input pins. -/
theorem gates_truth_tables :
    (∀ p : Fin 14 → Pin, GatePowered p → quadInputsBinary p → GateOr.truthTable p) ∧
    (∀ p : Fin 14 → Pin, GatePowered p → quadInputsBinary p → GateAnd.truthTable p) ∧
    (∀ p : Fin 14 → Pin, GatePowered p → quadInputsBinary p → GateNand.truthTable p) ∧
    (∀ p : Fin 14 → Pin, GatePowered p → norInputsBinary p → GateNor.truthTable p) ∧
    (∀ p : Fin 14 → Pin, GatePowered p → notInputsBinary p → GateNot.truthTable p) ∧
    (∀ p : Fin 14 → Pin, GatePowered p → tripleInputsBinary p → Gate3InputAnd.truthTable p) ∧
    (∀ p : Fin 14 → Pin, GatePowered p → tripleInputsBinary p → Gate3InputNand.truthTable p) ∧
    (∀ p : Fin 14 → Pin, GatePowered p → tripleInputsBinary p → Gate3InputNor.truthTable p) := by
  refine ⟨?_, ?_, ?_, ?_, ?_, ?_, ?_, ?_⟩
  · intro p hpow _
    refine ⟨?_, ?_, ?_, ?_⟩ <;>
      (rw [← or2_isHigh]; unfold GateOr.run; rw [if_pos hpow]; rfl)
  · intro p hpow _
    refine ⟨?_, ?_, ?_, ?_⟩ <;>
      (rw [← and2_isHigh]; unfold GateAnd.run; rw [if_pos hpow]; rfl)
  · intro p hpow _
    refine ⟨?_, ?_, ?_, ?_⟩ <;>
      (rw [← nand2_isHigh]; unfold GateNand.run; rw [if_pos hpow]; rfl)
  · intro p hpow _
    refine ⟨?_, ?_, ?_, ?_⟩ <;>
      (rw [← nor2_isHigh]; unfold GateNor.run; rw [if_pos hpow]; rfl)
  · intro p hpow _
    refine ⟨?_, ?_, ?_, ?_, ?_, ?_⟩ <;>
      (rw [← not1_isHigh]; unfold GateNot.run; rw [if_pos hpow]; rfl)
  · intro p hpow _
    refine ⟨?_, ?_, ?_⟩ <;>
      (rw [← and3_isHigh]; unfold Gate3InputAnd.run; rw [if_pos hpow]; rfl)
  · intro p hpow _
    refine ⟨?_, ?_, ?_⟩ <;>
      (rw [← nand3_isHigh]; unfold Gate3InputNand.run; rw [if_pos hpow]; rfl)
  · intro p hpow hbin
    obtain ⟨h0, h1, h2, h3, h4, h8, h9, h10, h12⟩ := hbin
    refine ⟨?_, ?_, ?_⟩
    · rw [← nor3_isHigh _ _ _ h0 h1 h12]; unfold Gate3InputNor.run; rw [if_pos hpow]; rfl
    · rw [← nor3_isHigh _ _ _ h2 h3 h4]; unfold Gate3InputNor.run; rw [if_pos hpow]; rfl
    · rw [← nor3_isHigh _ _ _ h10 h9 h8]; unfold Gate3InputNor.run; rw [if_pos hpow]; rfl

theorem gates_truth_tables_witness :
    GatePowered gatePins0 ∧ quadInputsBinary gatePins0 ∧ norInputsBinary gatePins0 ∧
    notInputsBinary gatePins0 ∧ tripleInputsBinary gatePins0 ∧
    GateOr.truthTable gatePins0 ∧ GateAnd.truthTable gatePins0 ∧
    GateNand.truthTable gatePins0 ∧ GateNor.truthTable gatePins0 ∧
    GateNot.truthTable gatePins0 ∧ Gate3InputAnd.truthTable gatePins0 ∧
    Gate3InputNand.truthTable gatePins0 ∧ Gate3InputNor.truthTable gatePins0 := by
  have hp : GatePowered gatePins0 := by decide
  have hq : quadInputsBinary gatePins0 := by decide
  have hr : norInputsBinary gatePins0 := by decide
  have hn : notInputsBinary gatePins0 := by decide
  have ht : tripleInputsBinary gatePins0 := by decide
  exact ⟨hp, hq, hr, hn, ht,
    gates_truth_tables.1 gatePins0 hp hq,
    gates_truth_tables.2.1 gatePins0 hp hq,
    gates_truth_tables.2.2.1 gatePins0 hp hq,
    gates_truth_tables.2.2.2.1 gatePins0 hp hr,
    gates_truth_tables.2.2.2.2.1 gatePins0 hp hn,
    gates_truth_tables.2.2.2.2.2.1 gatePins0 hp ht,
    gates_truth_tables.2.2.2.2.2.2.1 gatePins0 hp ht,
    gates_truth_tables.2.2.2.2.2.2.2 gatePins0 hp ht⟩

/-- Claim C5: whenever the power precondition fails, one `run` forces every
one of the 14 pins to the gate family's fixed unpowered state: Low for
`GateOr`, `GateNor`, `Gate3InputNor`; Undefined for `GateAnd`,
`Gate3InputAnd`, `GateNand`, `Gate3InputNand`, `GateNot`. -/
theorem gates_unpowered (p : Fin 14 → Pin) (hnp : ¬ GatePowered p) :
    (∀ i, ((GateOr.run p) i).state = State.Low) ∧
    (∀ i, ((GateNor.run p) i).state = State.Low) ∧
    (∀ i, ((Gate3InputNor.run p) i).state = State.Low) ∧
    (∀ i, ((GateAnd.run p) i).state = State.Undefined) ∧
    (∀ i, ((Gate3InputAnd.run p) i).state = State.Undefined) ∧
    (∀ i, ((GateNand.run p) i).state = State.Undefined) ∧
    (∀ i, ((Gate3InputNand.run p) i).state = State.Undefined) ∧
    (∀ i, ((GateNot.run p) i).state = State.Undefined) := by
  refine ⟨fun i => ?_, fun i => ?_, fun i => ?_, fun i => ?_, fun i => ?_, fun i => ?_,
    fun i => ?_, fun i => ?_⟩
  · unfold GateOr.run; rw [if_neg hnp]
  · unfold GateNor.run; rw [if_neg hnp]
  · unfold Gate3InputNor.run; rw [if_neg hnp]
  · unfold GateAnd.run; rw [if_neg hnp]
  · unfold Gate3InputAnd.run; rw [if_neg hnp]
  · unfold GateNand.run; rw [if_neg hnp]
  · unfold Gate3InputNand.run; rw [if_neg hnp]
  · unfold GateNot.run; rw [if_neg hnp]

theorem gates_unpowered_witness :
    ¬ GatePowered gatePinsU ∧
    ((GateOr.run gatePinsU) 0).state = State.Low ∧
    ((GateAnd.run gatePinsU) 0).state = State.Undefined := by
  have hnp : ¬ GatePowered gatePinsU := by decide
  exact ⟨hnp, (gates_unpowered gatePinsU hnp).1 0,
    (gates_unpowered gatePinsU hnp).2.2.2.1 0⟩

/-! ## Theorems about the memory chips -/

theorem setTypesRange_state (pins : Fin 22 → Pin) (lo hi : Nat) (t : PinType) (i : Fin 22) :
    ((setTypesRange pins lo hi t) i).state = (pins i).state := by
  unfold setTypesRange; split <;> rfl

theorem setTypesRange_type_in (pins : Fin 22 → Pin) (lo hi : Nat) (t : PinType) (i : Fin 22)
    (h1 : lo ≤ (i : Nat)) (h2 : (i : Nat) < hi) :
    ((setTypesRange pins lo hi t) i).pin_type = t := by
  unfold setTypesRange; rw [if_pos ⟨h1, h2⟩]

theorem setState_pin_type {n : Nat} (pins : Fin n → Pin) (i : Fin n) (s : State) (j : Fin n) :
    ((setState pins i s) j).pin_type = (pins j).pin_type := by
  unfold setState
  by_cases h : j = i
  · subst h; rw [Function.update_same]
  · rw [Function.update_noteq h]

theorem memDriveData_pin_type (pins : Fin 22 → Pin) (b : Nat) (i : Fin 22) :
    ((memDriveData pins b) i).pin_type = (pins i).pin_type := by
  unfold memDriveData
  simp only [setState_pin_type]

theorem bit22_of_from_u8 (pins : Fin 22 → Pin) (i : Fin 22) (v k : Nat)
    (h : (pins i).state = State.from_u8 v k) : bit22 pins i = v / 2 ^ k % 2 := by
  by_cases hc : v / 2 ^ k % 2 = 1
  · simp [bit22, State.from_u8, h, hc]
  · simp [bit22, State.from_u8, h, hc]
    omega

theorem memGetAddress_congr (p q : Fin 22 → Pin) (h : ∀ i, (p i).state = (q i).state) :
    memGetAddress p = memGetAddress q := by
  unfold memGetAddress bit22
  rw [h 3, h 4, h 5, h 6, h 7, h 8, h 9, h 11]

theorem memGetData_congr (p q : Fin 22 → Pin) (h : ∀ i, (p i).state = (q i).state) :
    memGetData p = memGetData q := by
  unfold memGetData bit22
  rw [h 12, h 13, h 14, h 15, h 16, h 17, h 18, h 19]

theorem memGetAddress_of_addrPins (pins : Fin 22 → Pin) (addr : Nat)
    (h : AddrPins pins addr) (ha : addr < 256) : memGetAddress pins = addr := by
  obtain ⟨h0, h1, h2, h3, h4, h5, h6, h7⟩ := h
  rw [memGetAddress, bit22_of_from_u8 _ _ _ _ h0, bit22_of_from_u8 _ _ _ _ h1,
    bit22_of_from_u8 _ _ _ _ h2, bit22_of_from_u8 _ _ _ _ h3, bit22_of_from_u8 _ _ _ _ h4,
    bit22_of_from_u8 _ _ _ _ h5, bit22_of_from_u8 _ _ _ _ h6, bit22_of_from_u8 _ _ _ _ h7]
  norm_num
  omega

theorem memGetData_of_dataPins (pins : Fin 22 → Pin) (b : Nat)
    (h : DataPins pins b) (hb : b < 256) : memGetData pins = b := by
  obtain ⟨h0, h1, h2, h3, h4, h5, h6, h7⟩ := h
  rw [memGetData, bit22_of_from_u8 _ _ _ _ h0, bit22_of_from_u8 _ _ _ _ h1,
    bit22_of_from_u8 _ _ _ _ h2, bit22_of_from_u8 _ _ _ _ h3, bit22_of_from_u8 _ _ _ _ h4,
    bit22_of_from_u8 _ _ _ _ h5, bit22_of_from_u8 _ _ _ _ h6, bit22_of_from_u8 _ _ _ _ h7]
  norm_num
  omega

theorem memAddrOf_of_addrPins (pins : Fin 22 → Pin) (addr : Nat)
    (h : AddrPins pins addr) (ha : addr < 256) : memAddrOf pins = ⟨addr, ha⟩ := by
  apply Fin.ext
  exact memGetAddress_of_addrPins pins addr h ha

theorem runWriteEnable_powered (c : Ram256B) :
    (Ram256B.runWriteEnable c).powered = c.powered := by
  unfold Ram256B.runWriteEnable; split <;> rfl

theorem runOutputEnable_powered (c : Ram256B) :
    (Ram256B.runOutputEnable c).powered = c.powered := by
  unfold Ram256B.runOutputEnable; split <;> rfl

theorem runSelected_powered (c : Ram256B) :
    (Ram256B.runSelected c).powered = c.powered := by
  unfold Ram256B.runSelected
  split
  · rw [runOutputEnable_powered, runWriteEnable_powered]
  · rfl

/-- Claim C6: on a powered `Ram256B`, a write cycle (CS Low, WE Low, OE
High, address pins encoding `addr`, IO pin states encoding `b`) stores `b`
at `addr` in the backing array and switches the IO pins to Input; any
subsequent read cycle (CS Low, WE High, OE Low, same address, same backing
array) switches the IO pins to Output and drives the IO pins with the
states encoding that same byte `b`. -/
theorem ram_write_read (c : Ram256B) (rnd rnd2 : Fin 256 → Nat) (addr b : Nat)
    (haddr : addr < 256) (hb : b < 256) (hpw : c.powered = true)
    (hw : RamWritePins c.pin addr b) :
    (Ram256B.run rnd c).ram ⟨addr, haddr⟩ = b ∧
    (∀ i : Fin 22, 12 ≤ (i : Nat) → (i : Nat) < 20 →
      ((Ram256B.run rnd c).pin i).pin_type = PinType.Input) ∧
    ∀ c2 : Ram256B, c2.ram = (Ram256B.run rnd c).ram → c2.powered = true →
      RamReadPins c2.pin addr →
      (∀ i : Fin 22, 12 ≤ (i : Nat) → (i : Nat) < 20 →
        ((Ram256B.run rnd2 c2).pin i).pin_type = PinType.Output) ∧
      ((Ram256B.run rnd2 c2).pin 12).state = State.from_u8 b 0 ∧
      ((Ram256B.run rnd2 c2).pin 13).state = State.from_u8 b 1 ∧
      ((Ram256B.run rnd2 c2).pin 14).state = State.from_u8 b 2 ∧
      ((Ram256B.run rnd2 c2).pin 15).state = State.from_u8 b 3 ∧
      ((Ram256B.run rnd2 c2).pin 16).state = State.from_u8 b 4 ∧
      ((Ram256B.run rnd2 c2).pin 17).state = State.from_u8 b 5 ∧
      ((Ram256B.run rnd2 c2).pin 18).state = State.from_u8 b 6 ∧
      ((Ram256B.run rnd2 c2).pin 19).state = State.from_u8 b 7 := by
  obtain ⟨hpow, hcs, hwe, hoe, haddrp, hdatap⟩ := hw
  have hstW : ∀ i, ((setTypesRange c.pin 12 20 PinType.Input) i).state = (c.pin i).state :=
    fun i => setTypesRange_state c.pin 12 20 PinType.Input i
  have haW : memAddrOf (setTypesRange c.pin 12 20 PinType.Input) = ⟨addr, haddr⟩ := by
    apply Fin.ext
    show memGetAddress _ = addr
    rw [memGetAddress_congr _ c.pin hstW]
    exact memGetAddress_of_addrPins c.pin addr haddrp haddr
  have hdW : memGetData (setTypesRange c.pin 12 20 PinType.Input) = b := by
    rw [memGetData_congr _ c.pin hstW]
    exact memGetData_of_dataPins c.pin b hdatap hb
  have hrun1 : Ram256B.run rnd c =
      { c with
        pin := setTypesRange c.pin 12 20 PinType.Input,
        ram := Function.update c.ram ⟨addr, haddr⟩ b } := by
    unfold Ram256B.run
    rw [if_pos hpow, if_neg (by simp [hpw])]
    unfold Ram256B.runSelected
    rw [if_pos hcs]
    unfold Ram256B.runWriteEnable
    rw [if_pos hwe]
    unfold Ram256B.runOutputEnable
    rw [if_neg (show ¬ ((setTypesRange c.pin 12 20 PinType.Input) 2).state = State.Low by
      rw [hstW 2, hoe]; decide)]
    dsimp only
    rw [haW, hdW]
  refine ⟨?_, ?_, ?_⟩
  · rw [hrun1]
    exact Function.update_same _ _ _
  · intro i h1 h2
    rw [hrun1]
    exact setTypesRange_type_in c.pin 12 20 PinType.Input i h1 h2
  · intro c2 hram2 hpw2 hr
    obtain ⟨hpow2, hcs2, hwe2, hoe2, haddrp2⟩ := hr
    have hstR : ∀ i, ((setTypesRange c2.pin 12 21 PinType.Output) i).state = (c2.pin i).state :=
      fun i => setTypesRange_state c2.pin 12 21 PinType.Output i
    have haR : memAddrOf (setTypesRange c2.pin 12 21 PinType.Output) = ⟨addr, haddr⟩ := by
      apply Fin.ext
      show memGetAddress _ = addr
      rw [memGetAddress_congr _ c2.pin hstR]
      exact memGetAddress_of_addrPins c2.pin addr haddrp2 haddr
    have hval : c2.ram (memAddrOf (setTypesRange c2.pin 12 21 PinType.Output)) = b := by
      rw [haR, hram2, hrun1]
      exact Function.update_same _ _ _
    have hrun2 : Ram256B.run rnd2 c2 =
        { c2 with pin := memDriveData (setTypesRange c2.pin 12 21 PinType.Output) b } := by
      unfold Ram256B.run
      rw [if_pos hpow2, if_neg (by simp [hpw2])]
      unfold Ram256B.runSelected
      rw [if_pos hcs2]
      unfold Ram256B.runWriteEnable
      rw [if_neg (by rw [hwe2]; decide)]
      unfold Ram256B.runOutputEnable
      rw [if_pos hoe2]
      dsimp only
      rw [hval]
    refine ⟨?_, ?_, ?_, ?_, ?_, ?_, ?_, ?_, ?_⟩
    · intro i h1 h2
      rw [hrun2]
      show ((memDriveData (setTypesRange c2.pin 12 21 PinType.Output) b) i).pin_type =
        PinType.Output
      rw [memDriveData_pin_type]
      exact setTypesRange_type_in c2.pin 12 21 PinType.Output i h1 (by omega)
    all_goals rw [hrun2]; rfl

theorem ram_write_read_witness :
    (Ram256B.run rnd0 ramW0).ram ⟨0, by decide⟩ = 0 ∧
    ((Ram256B.run rnd0 ramRead0).pin 12).state = State.from_u8 0 0 ∧
    ((Ram256B.run rnd0 ramRead0).pin 12).pin_type = PinType.Output := by
  have H := ram_write_read ramW0 rnd0 rnd0 0 0 (by decide) (by decide) rfl (by decide)
  have H2 := H.2.2 ramRead0 rfl rfl (by decide)
  exact ⟨H.1, H2.2.1, H2.1 12 (by decide) (by decide)⟩

/-- Claim C7: RAM power semantics as a step relation on
(pins, backing array, powered flag).  A run with power present factors
through `runSelected` applied to the chip with the backing array wholly
overwritten by the fresh random bytes and the flag set — exactly when the
flag was false before — and applied to the unchanged chip (independent of
the random oracle) when the flag was already true; either way the flag is
true afterwards.  A run with power absent while the flag is true sets every
pin state to Undefined, clears the flag and keeps the backing array; with
the flag already false it changes nothing. -/
theorem ram_power_semantics (rnd : Fin 256 → Nat) (c : Ram256B) :
    (MemPowerPins c.pin → c.powered = false →
      Ram256B.run rnd c = Ram256B.runSelected { c with ram := rnd, powered := true } ∧
      (Ram256B.run rnd c).powered = true) ∧
    (MemPowerPins c.pin → c.powered = true →
      Ram256B.run rnd c = Ram256B.runSelected c ∧
      (Ram256B.run rnd c).powered = true) ∧
    (¬ MemPowerPins c.pin → c.powered = true →
      (∀ i, ((Ram256B.run rnd c).pin i).state = State.Undefined) ∧
      (Ram256B.run rnd c).powered = false ∧ (Ram256B.run rnd c).ram = c.ram) ∧
    (¬ MemPowerPins c.pin → c.powered = false → Ram256B.run rnd c = c) := by
  refine ⟨?_, ?_, ?_, ?_⟩
  · intro hp hnp
    have he : Ram256B.run rnd c =
        Ram256B.runSelected { c with ram := rnd, powered := true } := by
      unfold Ram256B.run
      rw [if_pos hp, if_pos hnp]
    exact ⟨he, by rw [he, runSelected_powered]⟩
  · intro hp hpw
    have he : Ram256B.run rnd c = Ram256B.runSelected c := by
      unfold Ram256B.run
      rw [if_pos hp, if_neg (by simp [hpw])]
    exact ⟨he, by rw [he, runSelected_powered, hpw]⟩
  · intro hnpow hpw
    have he : Ram256B.run rnd c =
        { c with
          pin := fun i => { c.pin i with state := State.Undefined },
          powered := false } := by
      unfold Ram256B.run
      rw [if_neg hnpow, if_pos hpw]
    rw [he]
    exact ⟨fun i => rfl, rfl, rfl⟩
  · intro hnpow hnp
    unfold Ram256B.run
    rw [if_neg hnpow, if_neg (by simp [hnp])]

theorem ram_power_semantics_witness :
    (Ram256B.run rnd0 ramOn0 =
        Ram256B.runSelected { ramOn0 with ram := rnd0, powered := true } ∧
      (Ram256B.run rnd0 ramOn0).powered = true) ∧
    (Ram256B.run rnd0 ramOff0).powered = false ∧
    (Ram256B.run rnd0 ramOff0).ram = ramOff0.ram :=
  ⟨(ram_power_semantics rnd0 ramOn0).1 (by decide) rfl,
   ((ram_power_semantics rnd0 ramOff0).2.2.1 (by decide) rfl).2.1,
   ((ram_power_semantics rnd0 ramOff0).2.2.1 (by decide) rfl).2.2⟩

/-- Claim C8: `Rom256B::run` never changes the preloaded 256-byte array,
whatever the pin types and states are (there is no write path); and a
powered read cycle (CS Low, OE Low, address pins encoding the address)
switches the IO pins to Output and drives them with the states encoding
the preloaded byte at that address. -/
theorem rom_immutable_read :
    (∀ c : Rom256B, (Rom256B.run c).rom = c.rom) ∧
    (∀ (c : Rom256B) (addr : Nat) (haddr : addr < 256), RomReadPins c.pin addr →
      (∀ i : Fin 22, 12 ≤ (i : Nat) → (i : Nat) < 20 →
        ((Rom256B.run c).pin i).pin_type = PinType.Output) ∧
      ((Rom256B.run c).pin 12).state = State.from_u8 (c.rom ⟨addr, haddr⟩) 0 ∧
      ((Rom256B.run c).pin 13).state = State.from_u8 (c.rom ⟨addr, haddr⟩) 1 ∧
      ((Rom256B.run c).pin 14).state = State.from_u8 (c.rom ⟨addr, haddr⟩) 2 ∧
      ((Rom256B.run c).pin 15).state = State.from_u8 (c.rom ⟨addr, haddr⟩) 3 ∧
      ((Rom256B.run c).pin 16).state = State.from_u8 (c.rom ⟨addr, haddr⟩) 4 ∧
      ((Rom256B.run c).pin 17).state = State.from_u8 (c.rom ⟨addr, haddr⟩) 5 ∧
      ((Rom256B.run c).pin 18).state = State.from_u8 (c.rom ⟨addr, haddr⟩) 6 ∧
      ((Rom256B.run c).pin 19).state = State.from_u8 (c.rom ⟨addr, haddr⟩) 7) := by
  constructor
  · intro c
    unfold Rom256B.run
    split_ifs <;> rfl
  · intro c addr haddr hr
    obtain ⟨hpow, hcs, hoe, haddrp⟩ := hr
    have hstR : ∀ i, ((setTypesRange c.pin 12 21 PinType.Output) i).state = (c.pin i).state :=
      fun i => setTypesRange_state c.pin 12 21 PinType.Output i
    have haR : memAddrOf (setTypesRange c.pin 12 21 PinType.Output) = ⟨addr, haddr⟩ := by
      apply Fin.ext
      show memGetAddress _ = addr
      rw [memGetAddress_congr _ c.pin hstR]
      exact memGetAddress_of_addrPins c.pin addr haddrp haddr
    have hrun : Rom256B.run c =
        { c with
          pin := memDriveData (setTypesRange c.pin 12 21 PinType.Output)
            (c.rom ⟨addr, haddr⟩) } := by
      unfold Rom256B.run
      rw [if_pos hpow, if_pos hcs, if_pos hoe]
      dsimp only
      rw [haR]
    refine ⟨?_, ?_, ?_, ?_, ?_, ?_, ?_, ?_, ?_⟩
    · intro i h1 h2
      rw [hrun]
      show ((memDriveData (setTypesRange c.pin 12 21 PinType.Output) _) i).pin_type =
        PinType.Output
      rw [memDriveData_pin_type]
      exact setTypesRange_type_in c.pin 12 21 PinType.Output i h1 (by omega)
    all_goals rw [hrun]; rfl

theorem rom_immutable_read_witness :
    (Rom256B.run rom0).rom = rom0.rom ∧
    ((Rom256B.run rom0).pin 12).state = State.from_u8 (rom0.rom ⟨0, by decide⟩) 0 := by
  have H := rom_immutable_read.2 rom0 0 (by decide) (by decide)
  exact ⟨rom_immutable_read.1 rom0, H.2.1⟩

/-! ## Theorems about the pin accessors -/

/-- Claim C9: the public pin accessor reports "Pin out of bounds" to the
caller (as an `Err` value, never a panic — totality is by construction in
this embedding) exactly when the index is outside [1, pin_count], and
returns a pin for every index inside the range; for `Generator` the range
is [1, 2] and for the 14-pin gate chips it is [1, 14]. -/
theorem get_pin_bounds (g : Generator) (i : Nat) :
    ((∃ x, Generator.get_pin g i = Except.ok x) ↔ (1 ≤ i ∧ i ≤ 2)) ∧
    (¬ (1 ≤ i ∧ i ≤ 2) → Generator.get_pin g i = Except.error "Pin out of bounds") ∧
    ∀ p : Fin 14 → Pin,
      ((∃ x, gateGetPin p i = Except.ok x) ↔ (1 ≤ i ∧ i ≤ 14)) ∧
      (¬ (1 ≤ i ∧ i ≤ 14) → gateGetPin p i = Except.error "Pin out of bounds") := by
  refine ⟨?_, ?_, fun p => ⟨?_, ?_⟩⟩
  · unfold Generator.get_pin
    by_cases hc : 0 < i ∧ i ≤ 2
    · rw [dif_pos hc]
      exact ⟨fun _ => hc, fun _ => ⟨_, rfl⟩⟩
    · rw [dif_neg hc]
      constructor
      · rintro ⟨x, hx⟩
        exact Except.noConfusion hx
      · intro hh
        exact absurd hh hc
  · intro hh
    unfold Generator.get_pin
    rw [dif_neg (show ¬ (0 < i ∧ i ≤ 2) from hh)]
  · unfold gateGetPin
    by_cases hc : 0 < i ∧ i ≤ 14
    · rw [dif_pos hc]
      exact ⟨fun _ => hc, fun _ => ⟨_, rfl⟩⟩
    · rw [dif_neg hc]
      constructor
      · rintro ⟨x, hx⟩
        exact Except.noConfusion hx
      · intro hh
        exact absurd hh hc
  · intro hh
    unfold gateGetPin
    rw [dif_neg (show ¬ (0 < i ∧ i ≤ 14) from hh)]

theorem get_pin_bounds_witness :
    (∃ x, Generator.get_pin gen0 1 = Except.ok x) ∧
    Generator.get_pin gen0 3 = Except.error "Pin out of bounds" ∧
    gateGetPin gatePins0 15 = Except.error "Pin out of bounds" :=
  ⟨((get_pin_bounds gen0 1).1).mpr (by decide),
   (get_pin_bounds gen0 3).2.1 (by decide),
   ((get_pin_bounds gen0 15).2.2 gatePins0).2 (by decide)⟩

end VirtIc
